import Mathlib

/-!
Verification of the biosignalml-corelib time-series segmented access layer.

The development shallowly embeds the two source files:
* `formats/hdf5/__init__.py` — `HDF5Signal.read` (chunked generator read),
  `HDF5Signal.append`;
* `model/__init__.py` — `Recording.add_signal`, `Recording.get_signal`,
  `Recording.signals`.

Modelling conventions:
* Python floats are modelled as rationals (`ℚ`); sample values and
  timestamps are rationals.
* The binary store binding `self._h5` is an external collaborator; the
  read loop is stated over an arbitrary store function
  `store : Nat → Nat → List ℚ` (start index and requested count to the
  returned samples), and the honest store `listStore` realises Python
  list/array slicing over the stored samples.
* A Python generator function defers its body: calling `read` returns a
  generator value and raises nothing; the body runs when the sequence is
  iterated.  `readCall` models the call, `runRead` models running the
  returned generator to exhaustion.
* URIs (compared and sorted as strings by the source) are modelled as
  elements of the linearly ordered type `Nat`; the claims at issue only
  use that URI comparison is a decidable linear order.
* Fallible operations return `Except PyErr`; Python exception classes are
  mapped to `PyErr` constructors.
-/

namespace BSML

/-- Errors raised by the modelled code, named after the Python exception
(or the spec's error taxonomy where the source raises a bare `Exception`
with a distinguishing message). -/
inductive PyErr where
  | valueError
  | typeError
  | attributeError
  | duplicateURI
  | ownedElsewhere
  | dimensionMismatch
  deriving DecidableEq

/-- Modelled from the spec: the Clock abstraction of the missing
`biosignalml.data` module (§3, §4.1) — a tagged variant, `uniform` holding
a fixed rate, `explicit` holding the ordered timestamp sequence. -/
inductive ClockModel where
  | uniform (rate : ℚ)
  | explicit (times : List ℚ)
  deriving DecidableEq

/-- Modelled from the spec: TimeSeries / UniformTimeSeries of the missing
`biosignalml.data` module (§3) — a uniform series owns sample values and a
rate, an explicit series owns parallel timestamp and value sequences. -/
inductive PyTimeSeries where
  | uniform (data : List ℚ) (rate : ℚ)
  | explicit (times : List ℚ) (data : List ℚ)
  deriving DecidableEq

/-- The sample values carried by a series (`timeseries.data`). -/
def PyTimeSeries.data : PyTimeSeries → List ℚ
  | .uniform d _ => d
  | .explicit _ d => d

/-- Modelled from the spec: a uniform series owns only a rate, so
`timeseries.time.times` exists exactly for explicit series. -/
def PyTimeSeries.timesOf : PyTimeSeries → Option (List ℚ)
  | .uniform _ _ => none
  | .explicit t _ => some t

/-- Modelled from the spec: DataSegment of the missing `biosignalml.data`
module (§3) — a start origin paired with a series fragment. -/
structure DataSegment where
  start : ℚ
  series : PyTimeSeries
  deriving DecidableEq

/-- Modelled from the spec: `UniformClock.__getitem__` — index to time by
the closed form `index / rate` (§4.1 `time_at`). -/
def uniformTime (rate : ℚ) (index : Nat) : ℚ := (index : ℚ) / rate

/-- Modelled from the spec: `Clock.index` — time to index (§4.1
`index_at`): `round(time * rate)` for a uniform clock, the position of the
first timestamp at or above the time for an explicit clock (`length` when
none is). -/
def ClockModel.index : ClockModel → ℚ → Int
  | .uniform r, t => round (t * r)
  | .explicit ts, t => (ts.findIdx (fun x => decide (t ≤ x)) : Int)

/-- An `HDF5Signal` bound to stored data: the stored samples (the
`self._h5` dataset contents), the signal's `rate` attribute (`None` when
unset), and its clock. -/
structure SignalModel where
  h5data : List ℚ
  rate : Option ℚ
  clock : ClockModel
  deriving DecidableEq

/-- Python truthiness of an optional float argument: `None` and `0` are
falsy. -/
def truthy : Option ℚ → Bool
  | none => false
  | some v => v != 0

/-- Python truthiness of an optional int argument. -/
def truthyInt : Option Int → Bool
  | none => false
  | some v => v != 0

/-- Python `int()` applied to a rational: truncation toward zero. -/
def pyInt (q : ℚ) : Int := q.num.tdiv q.den

/-- Chunk-cap resolution, `HDF5Signal.read` lines 66–71: when
`maxduration` is truthy, `pts = int(self.rate*maxduration + 0.5)`
(a `TypeError` when the `rate` attribute is `None`), and `maxpoints`
becomes `min(maxpoints, pts)` when truthy, else `pts`; afterwards any
`maxpoints` outside `(0, MAXPOINTS]` (or a still absent one) falls back to
`MAXPOINTS`.  The ceiling `BSMLSignal.MAXPOINTS` lives in the missing
`biosignalml.formats` module and is kept as the parameter `MAX`. -/
def resolveCap (MAX : Nat) (rate : Option ℚ) (maxduration : Option ℚ)
    (maxpoints : Option Int) : Except PyErr Nat :=
  match (if truthy maxduration then
          match rate with
          | none => Except.error PyErr.typeError
          | some r =>
            let pts := pyInt (r * (maxduration.getD 0) + 1 / 2)
            Except.ok (some (match maxpoints with
              | some m => if m ≠ 0 then min m pts else pts
              | none => pts))
         else Except.ok maxpoints) with
  | Except.error e => Except.error e
  | Except.ok mp1 =>
    Except.ok (match mp1 with
      | none => MAX
      | some m => if 0 < m ∧ m ≤ (MAX : Int) then m.toNat else MAX)

/-- State of the read loop (lines 88–96): the store cursor `startpos`,
the samples still wanted `length`, and the current chunk cap
`maxpoints` (the loop shrinks it to `length` once it overshoots). -/
structure LoopSt where
  startpos : Nat
  length : Nat
  maxpoints : Nat
  deriving DecidableEq

/-- The segment built for one chunk (lines 91–94): a uniform clock gives
`DataSegment(clock[startpos], UniformTimeSeries(data, clock.rate))`, an
explicit clock gives
`DataSegment(0, TimeSeries(clock[startpos:startpos+maxpoints], data))`. -/
def emitSeg (clock : ClockModel) (startpos mp : Nat) (data : List ℚ) :
    DataSegment :=
  match clock with
  | ClockModel.uniform r => ⟨uniformTime r startpos, PyTimeSeries.uniform data r⟩
  | ClockModel.explicit ts =>
    ⟨0, PyTimeSeries.explicit ((ts.drop startpos).take mp) data⟩

/-- One iteration of the `while length > 0` loop: clamp the cap to the
remaining length, pull `data = store[startpos : startpos+maxpoints]`,
yield the segment, and advance by the number of samples actually
returned.  `none` means the loop has exited. -/
def readStep (store : Nat → Nat → List ℚ) (clock : ClockModel) (s : LoopSt) :
    Option (DataSegment × LoopSt) :=
  if s.length = 0 then none
  else
    let mp := if s.maxpoints > s.length then s.length else s.maxpoints
    let data := store s.startpos mp
    some (emitSeg clock s.startpos mp data,
          ⟨s.startpos + data.length, s.length - data.length, mp⟩)

/-- The read loop run with explicit fuel: the Python loop is unbounded,
and with the honest store `length` iterations always suffice (proved
below); a store that stops making progress shows up as the fuel mattering. -/
def readLoop (store : Nat → Nat → List ℚ) (clock : ClockModel) :
    Nat → LoopSt → List DataSegment
  | 0, _ => []
  | fuel + 1, s =>
    match readStep store clock s with
    | none => []
    | some (seg, s2) => seg :: readLoop store clock fuel s2

/-- The honest store: Python slicing `h5[a : a+n]` over the stored
samples, returning every requested sample that exists. -/
def listStore (l : List ℚ) : Nat → Nat → List ℚ := fun a n => (l.drop a).take n

/-- The arguments of `HDF5Signal.read`: the `interval` (start and end
time) and `segment` (start and end index, inclusive) addressings, and the
two optional caps. -/
structure ReadArgs where
  interval : Option (ℚ × ℚ)
  segment : Option (Int × Int)
  maxduration : Option ℚ
  maxpoints : Option Int
  deriving DecidableEq

/-- A generator returned by calling `read`: the bound signal and the call
arguments, with the body not yet run. -/
structure ReadGen where
  sig : SignalModel
  args : ReadArgs
  deriving DecidableEq

/-- Calling `HDF5Signal.read`.  The source function contains `yield`, so
in Python it is a generator function: the call itself runs none of the
body and always returns a generator value — no argument check happens
here. -/
def readCall (sig : SignalModel) (a : ReadArgs) : Except PyErr ReadGen :=
  Except.ok ⟨sig, a⟩

/-- Running a `read` generator to exhaustion (lines 64–96): the
both-addressings `ValueError`, cap resolution, interval resolution through
the clock, index-range normalisation and clamping, then the chunk loop
over the honest store. -/
def runRead (MAX : Nat) (g : ReadGen) : Except PyErr (List DataSegment) :=
  match g.args.interval, g.args.segment with
  | some _, some _ => Except.error PyErr.valueError
  | iv, sg0 =>
    match resolveCap MAX g.sig.rate g.args.maxduration g.args.maxpoints with
    | Except.error e => Except.error e
    | Except.ok cap =>
      let sg : Option (Int × Int) :=
        match iv with
        | some p => some (g.sig.clock.index p.1, g.sig.clock.index p.2)
        | none => sg0
      match sg with
      | none =>
        Except.ok (readLoop (listStore g.sig.h5data) g.sig.clock
          g.sig.h5data.length ⟨0, g.sig.h5data.length, cap⟩)
      | some p =>
        let s := if p.1 ≤ p.2 then p else (p.2, p.1)
        let sp : Int := max 0 s.1
        let len : Nat :=
          ((min (g.sig.h5data.length : Int) (s.2 + 1)) - sp).toNat
        Except.ok (readLoop (listStore g.sig.h5data) g.sig.clock len
          ⟨sp.toNat, len, cap⟩)

/-- The values carried by a segment. -/
def segValues (s : DataSegment) : List ℚ := s.series.data

/-- The length of a segment. -/
def segLen (s : DataSegment) : Nat := s.series.data.length

/-- Concatenation of the values of a list of segments. -/
def segsData (ss : List DataSegment) : List ℚ :=
  (ss.map segValues).flatten

/-- The `H5Recording` store state touched by `append`: the stored sample
values of the signal and the stored clock timestamps. -/
structure H5Store where
  values : List ℚ
  clockTimes : List ℚ
  deriving DecidableEq

/-- `HDF5Signal.append` (lines 102–112): when the signal's clock is not a
`UniformClock`, forward `timeseries.time.times` to `extend_clock` (for a
uniform series that attribute access fails, modelled from the spec's
statement that a uniform series owns only a rate); then forward
`timeseries.data` to `extend_signal`.  No clock-variant compatibility
check appears anywhere. -/
def appendData (clock : ClockModel) (store : H5Store) (ts : PyTimeSeries) :
    Except PyErr H5Store :=
  match clock with
  | ClockModel.uniform _ =>
    Except.ok { store with values := store.values ++ ts.data }
  | ClockModel.explicit _ =>
    match ts.timesOf with
    | none => Except.error PyErr.attributeError
    | some t =>
      Except.ok { values := store.values ++ ts.data,
                  clockTimes := store.clockTimes ++ t }

/-- A signal entry of the abstract model (`model/__init__.py`): its URI
and its `recording` reference (the owning recording's URI when set). -/
structure SignalEntry where
  uri : Nat
  recording : Option Nat
  deriving DecidableEq

/-- A `Recording`'s signal directory: its URI, `_signal_uris` in insertion
order, and the URI-keyed map `_signals`. -/
structure RecordingModel where
  uri : Nat
  signal_uris : List Nat
  sigmap : List (Nat × SignalEntry)
  deriving DecidableEq

/-- `Recording.add_signal` (lines 141–157): duplicate URI and
owned-elsewhere checks, then bind `signal.recording`, append the URI,
insert into the map, and return `len(self._signal_uris) - 1`.  The result
carries the recording and signal states after the call (unchanged on
error, since the raise happens before any mutation). -/
def add_signal (rec : RecordingModel) (sig : SignalEntry) :
    Except PyErr Nat × RecordingModel × SignalEntry :=
  if sig.uri ∈ rec.signal_uris then
    (Except.error PyErr.duplicateURI, rec, sig)
  else if (match sig.recording with
           | some r0 => r0 != rec.uri
           | none => false) then
    (Except.error PyErr.ownedElsewhere, rec, sig)
  else
    let sig2 : SignalEntry := { sig with recording := some rec.uri }
    ((Except.ok ((rec.signal_uris ++ [sig.uri]).length - 1)),
     { rec with signal_uris := rec.signal_uris ++ [sig.uri],
                sigmap := rec.sigmap ++ [(sig.uri, sig2)] },
     sig2)

/-- `Recording.signals` (lines 137–139): the signals listed by sorted URI
(`sorted(self._signal_uris)` then map lookup; a missing key would be a
Python `KeyError`, modelled as `none`). -/
def signals (rec : RecordingModel) : List (Option SignalEntry) :=
  (rec.signal_uris.insertionSort (· ≤ ·)).map (fun u => rec.sigmap.lookup u)

/-- `Recording.get_signal` (lines 159–169): by URI when given, else
`uri = self._signal_uris[index]` — the insertion-order list — and then
the map lookup. -/
def get_signal (rec : RecordingModel) (uri : Option Nat) (index : Nat) :
    Option SignalEntry :=
  match uri with
  | some u => rec.sigmap.lookup u
  | none =>
    match rec.signal_uris[index]? with
    | some u => rec.sigmap.lookup u
    | none => none

/-! Helper lemmas about the read loop over the honest store. -/

theorem segsData_nil : segsData [] = [] := rfl

theorem segsData_cons (s : DataSegment) (t : List DataSegment) :
    segsData (s :: t) = segValues s ++ segsData t := by
  simp [segsData]

theorem emitSeg_series_data (clock : ClockModel) (sp mp : Nat)
    (data : List ℚ) : (emitSeg clock sp mp data).series.data = data := by
  cases clock <;> rfl

theorem listStore_length (l : List ℚ) (a n : Nat) (h : a + n ≤ l.length) :
    (listStore l a n).length = n := by
  simp only [listStore, List.length_take, List.length_drop]
  omega

theorem readStep_zero_length (store : Nat → Nat → List ℚ)
    (clock : ClockModel) (s : LoopSt) (h : s.length = 0) :
    readStep store clock s = none := by
  simp [readStep, h]

theorem readStep_pos (store : Nat → Nat → List ℚ) (clock : ClockModel)
    (sp len mp : Nat) (h : len ≠ 0) :
    readStep store clock ⟨sp, len, mp⟩ =
      some (emitSeg clock sp (min mp len) (store sp (min mp len)),
        ⟨sp + (store sp (min mp len)).length,
         len - (store sp (min mp len)).length, min mp len⟩) := by
  have hmp : (if mp > len then len else mp) = min mp len := by
    split <;> omega
  simp [readStep, h, hmp]

theorem readLoop_zero_fuel (store : Nat → Nat → List ℚ)
    (clock : ClockModel) (s : LoopSt) :
    readLoop store clock 0 s = [] := rfl

theorem readLoop_succ (store : Nat → Nat → List ℚ) (clock : ClockModel)
    (fuel : Nat) (s : LoopSt) :
    readLoop store clock (fuel + 1) s =
      match readStep store clock s with
      | none => []
      | some (seg, s2) => seg :: readLoop store clock fuel s2 := rfl

theorem readLoop_concat_sum (l : List ℚ) (clock : ClockModel) :
    ∀ (fuel len sp mp : Nat), 1 ≤ mp → sp + len ≤ l.length → len ≤ fuel →
      segsData (readLoop (listStore l) clock fuel ⟨sp, len, mp⟩) =
        (l.drop sp).take len ∧
      ((readLoop (listStore l) clock fuel ⟨sp, len, mp⟩).map segLen).sum =
        len := by
  intro fuel
  induction fuel with
  | zero =>
    intro len sp mp _ _ h3
    have h0 : len = 0 := Nat.le_zero.mp h3
    subst h0
    simp [readLoop_zero_fuel, segsData]
  | succ fuel ih =>
    intro len sp mp h1 h2 h3
    by_cases h0 : len = 0
    · subst h0
      simp [readLoop_succ, readStep_zero_length, segsData]
    · have hstep := readStep_pos (listStore l) clock sp len mp h0
      have hn1 : 1 ≤ min mp len := by omega
      have hnle : min mp len ≤ len := by omega
      have hdlen : (listStore l sp (min mp len)).length = min mp len :=
        listStore_length l sp (min mp len) (by omega)
      rw [readLoop_succ, hstep, hdlen]
      obtain ⟨ihc, ihs⟩ :=
        ih (len - min mp len) (sp + min mp len) (min mp len) hn1
          (by omega) (by omega)
      constructor
      · rw [segsData_cons, ihc]
        have hval : segValues (emitSeg clock sp (min mp len)
            (listStore l sp (min mp len))) = (l.drop sp).take (min mp len) :=
          emitSeg_series_data clock sp (min mp len) (listStore l sp (min mp len))
        rw [hval, ← List.drop_drop, ← List.take_add]
        congr 1
        omega
      · simp only [List.map_cons, List.sum_cons, ihs]
        have : segLen (emitSeg clock sp (min mp len)
            (listStore l sp (min mp len))) = min mp len := by
          simp only [segLen, emitSeg_series_data, hdlen]
        rw [this]
        omega

theorem readLoop_mem (l : List ℚ) (clock : ClockModel) :
    ∀ (fuel len sp mp : Nat), 1 ≤ mp → sp + len ≤ l.length → len ≤ fuel →
      ∀ seg ∈ readLoop (listStore l) clock fuel ⟨sp, len, mp⟩,
        ∃ c n, sp ≤ c ∧ 1 ≤ n ∧ c + n ≤ sp + len ∧
          seg = emitSeg clock c n ((l.drop c).take n) := by
  intro fuel
  induction fuel with
  | zero =>
    intro len sp mp _ _ h3 seg hseg
    have h0 : len = 0 := Nat.le_zero.mp h3
    subst h0
    simp [readLoop_zero_fuel] at hseg
  | succ fuel ih =>
    intro len sp mp h1 h2 h3 seg hseg
    by_cases h0 : len = 0
    · subst h0
      simp [readLoop_succ, readStep_zero_length] at hseg
    · have hstep := readStep_pos (listStore l) clock sp len mp h0
      have hn1 : 1 ≤ min mp len := by omega
      have hnle : min mp len ≤ len := by omega
      have hdlen : (listStore l sp (min mp len)).length = min mp len :=
        listStore_length l sp (min mp len) (by omega)
      rw [readLoop_succ, hstep, hdlen] at hseg
      rcases List.mem_cons.mp hseg with hhd | htl
      · exact ⟨sp, min mp len, le_rfl, hn1, by omega, hhd⟩
      · obtain ⟨c, n, hc, hn, hcn, hval⟩ :=
          ih (len - min mp len) (sp + min mp len) (min mp len) hn1
            (by omega) (by omega) seg htl
        exact ⟨c, n, by omega, hn, by omega, hval⟩

theorem readLoop_fuel_eq (l : List ℚ) (clock : ClockModel) :
    ∀ (fuel1 fuel2 len sp mp : Nat), 1 ≤ mp → sp + len ≤ l.length →
      len ≤ fuel1 → len ≤ fuel2 →
      readLoop (listStore l) clock fuel1 ⟨sp, len, mp⟩ =
        readLoop (listStore l) clock fuel2 ⟨sp, len, mp⟩ := by
  intro fuel1
  induction fuel1 with
  | zero =>
    intro fuel2 len sp mp _ _ h3 _
    have h0 : len = 0 := Nat.le_zero.mp h3
    subst h0
    cases fuel2 with
    | zero => rfl
    | succ f2 => simp [readLoop_zero_fuel, readLoop_succ, readStep_zero_length]
  | succ fuel ih =>
    intro fuel2 len sp mp h1 h2 h3 h4
    by_cases h0 : len = 0
    · subst h0
      cases fuel2 with
      | zero => simp [readLoop_zero_fuel, readLoop_succ, readStep_zero_length]
      | succ f2 => simp [readLoop_succ, readStep_zero_length]
    · cases fuel2 with
      | zero => omega
      | succ f2 =>
        have hstep := readStep_pos (listStore l) clock sp len mp h0
        have hn1 : 1 ≤ min mp len := by omega
        have hnle : min mp len ≤ len := by omega
        have hdlen : (listStore l sp (min mp len)).length = min mp len :=
          listStore_length l sp (min mp len) (by omega)
        rw [readLoop_succ, readLoop_succ, hstep, hdlen]
        simp only []
        congr 1
        exact ih f2 (len - min mp len) (sp + min mp len) (min mp len) hn1
          (by omega) (by omega) (by omega)

theorem resolveCap_none_ok (MAX : Nat) (rate : Option ℚ) (mp : Option Int)
    (hMAX : 1 ≤ MAX) :
    ∃ cap : Nat, resolveCap MAX rate none mp = Except.ok cap ∧ 1 ≤ cap := by
  cases mp with
  | none => exact ⟨MAX, by simp [resolveCap, truthy], hMAX⟩
  | some m =>
    by_cases h : 0 < m ∧ m ≤ (MAX : Int)
    · exact ⟨m.toNat, by simp [resolveCap, truthy, h], by omega⟩
    · exact ⟨MAX, by simp [resolveCap, truthy, h], hMAX⟩

theorem runRead_segment (MAX : Nat) (l : List ℚ) (rate : Option ℚ)
    (clock : ClockModel) (a b : Int) (mp : Option Int) (cap : Nat)
    (hcap : resolveCap MAX rate none mp = Except.ok cap) (hab : a ≤ b) :
    runRead MAX ⟨⟨l, rate, clock⟩, ⟨none, some (a, b), none, mp⟩⟩ =
      Except.ok (readLoop (listStore l) clock
        ((min (l.length : Int) (b + 1) - max 0 a).toNat)
        ⟨(max 0 a).toNat,
         (min (l.length : Int) (b + 1) - max 0 a).toNat, cap⟩) := by
  simp [runRead, hcap, hab]

/-! Claim theorems. -/

/-- Claim C1: for every read over a resolved index range `(a, b)` lying
within the stored data, with any chunk cap, over the honest store (which
returns every requested sample), the concatenation of the values of all
yielded DataSegments equals exactly the stored values of that index
range, and the segment lengths sum to `b - a + 1` — no gaps, no overlaps,
no duplication. -/
theorem read_roundtrip_exact (MAX : Nat) (l : List ℚ) (rate : Option ℚ)
    (clock : ClockModel) (a b : Int) (mp : Option Int)
    (hMAX : 1 ≤ MAX) (ha : 0 ≤ a) (hab : a ≤ b) (hb : b < (l.length : Int)) :
    ∃ segs, runRead MAX ⟨⟨l, rate, clock⟩, ⟨none, some (a, b), none, mp⟩⟩ =
        Except.ok segs ∧
      segsData segs = (l.drop a.toNat).take (b - a + 1).toNat ∧
      ((segs.map segLen).sum : Int) = b - a + 1 := by
  obtain ⟨cap, hcap, hcap1⟩ := resolveCap_none_ok MAX rate mp hMAX
  have hrun := runRead_segment MAX l rate clock a b mp cap hcap hab
  have hsp : (max 0 a).toNat = a.toNat := by omega
  have hlen : (min (l.length : Int) (b + 1) - max 0 a).toNat =
      (b - a + 1).toNat := by omega
  rw [hsp, hlen] at hrun
  have hmain := readLoop_concat_sum l clock (b - a + 1).toNat
    (b - a + 1).toNat a.toNat cap hcap1 (by omega) le_rfl
  refine ⟨_, hrun, hmain.1, ?_⟩
  rw [hmain.2]
  omega

theorem read_roundtrip_exact_witness :
    1 ≤ 10 ∧ (0 : Int) ≤ 1 ∧ (1 : Int) ≤ 3 ∧
      (3 : Int) < (([1, 2, 3, 4, 5] : List ℚ).length : Int) ∧
      (∃ segs, runRead 10 ⟨⟨[1, 2, 3, 4, 5], none, ClockModel.uniform 1⟩,
          ⟨none, some (1, 3), none, some 2⟩⟩ = Except.ok segs ∧
        segsData segs =
          (([1, 2, 3, 4, 5] : List ℚ).drop (1 : Int).toNat).take
            ((3 : Int) - 1 + 1).toNat ∧
        ((segs.map segLen).sum : Int) = 3 - 1 + 1) :=
  ⟨by decide, by decide, by decide, by decide,
   read_roundtrip_exact 10 [1, 2, 3, 4, 5] none (ClockModel.uniform 1) 1 3
     (some 2) (by decide) (by decide) (by decide) (by decide)⟩

/-- Claim C2: every chunk yielded by a read follows the clock-variant
dispatch rule — for a uniform clock the segment start is the cursor index
converted to time (`cursor / rate`) and the series carries the rate; for
an explicit clock the segment start is `0` and the series carries the
timestamp slice of the clock covering exactly the same indices as the
returned values. -/
theorem read_origin_dispatch (MAX : Nat) (l : List ℚ) (rate : Option ℚ)
    (clock : ClockModel) (a b : Int) (mp : Option Int)
    (hMAX : 1 ≤ MAX) (ha : 0 ≤ a) (hab : a ≤ b) (hb : b < (l.length : Int)) :
    ∃ segs, runRead MAX ⟨⟨l, rate, clock⟩, ⟨none, some (a, b), none, mp⟩⟩ =
        Except.ok segs ∧
      ∀ seg ∈ segs, ∃ c n : Nat, a.toNat ≤ c ∧ 1 ≤ n ∧
        ((c : Int) + n ≤ b + 1) ∧
        (∀ r, clock = ClockModel.uniform r →
          seg.start = uniformTime r c ∧
          seg.series = PyTimeSeries.uniform ((l.drop c).take n) r) ∧
        (∀ ts, clock = ClockModel.explicit ts →
          seg.start = 0 ∧
          seg.series = PyTimeSeries.explicit ((ts.drop c).take n)
            ((l.drop c).take n) ∧
          (ts.length = l.length →
            ((ts.drop c).take n).length = n ∧
            ((l.drop c).take n).length = n)) := by
  obtain ⟨cap, hcap, hcap1⟩ := resolveCap_none_ok MAX rate mp hMAX
  have hrun := runRead_segment MAX l rate clock a b mp cap hcap hab
  have hsp : (max 0 a).toNat = a.toNat := by omega
  have hlen : (min (l.length : Int) (b + 1) - max 0 a).toNat =
      (b - a + 1).toNat := by omega
  rw [hsp, hlen] at hrun
  refine ⟨_, hrun, ?_⟩
  intro seg hseg
  obtain ⟨c, n, hc, hn, hcn, hval⟩ := readLoop_mem l clock
    (b - a + 1).toNat (b - a + 1).toNat a.toNat cap hcap1 (by omega)
    le_rfl seg hseg
  have hcnl : c + n ≤ l.length := by omega
  refine ⟨c, n, hc, hn, by omega, ?_, ?_⟩
  · intro r hr
    subst hr
    rw [hval]
    exact ⟨rfl, rfl⟩
  · intro ts hts
    subst hts
    rw [hval]
    refine ⟨rfl, rfl, ?_⟩
    intro hlts
    constructor
    · simp only [List.length_take, List.length_drop]
      omega
    · simp only [List.length_take, List.length_drop]
      omega

theorem read_origin_dispatch_witness :
    1 ≤ 10 ∧ (0 : Int) ≤ 0 ∧ (0 : Int) ≤ 1 ∧
      (1 : Int) < (([3, 4] : List ℚ).length : Int) ∧
      (∃ segs, runRead 10 ⟨⟨[3, 4], none, ClockModel.uniform 100⟩,
          ⟨none, some (0, 1), none, none⟩⟩ = Except.ok segs ∧
        ∀ seg ∈ segs, ∃ c n : Nat, (0 : Int).toNat ≤ c ∧ 1 ≤ n ∧
          ((c : Int) + n ≤ 1 + 1) ∧
          (∀ r, ClockModel.uniform (100 : ℚ) = ClockModel.uniform r →
            seg.start = uniformTime r c ∧
            seg.series = PyTimeSeries.uniform
              ((([3, 4] : List ℚ).drop c).take n) r) ∧
          (∀ ts, ClockModel.uniform (100 : ℚ) = ClockModel.explicit ts →
            seg.start = 0 ∧
            seg.series = PyTimeSeries.explicit ((ts.drop c).take n)
              ((([3, 4] : List ℚ).drop c).take n) ∧
            (ts.length = ([3, 4] : List ℚ).length →
              ((ts.drop c).take n).length = n ∧
              ((([3, 4] : List ℚ).drop c).take n).length = n))) :=
  ⟨by decide, by decide, by decide, by decide,
   read_origin_dispatch 10 [3, 4] none (ClockModel.uniform 100) 0 1 none
     (by decide) (by decide) (by decide) (by decide)⟩

/-- Claim C10: an `IndexRange` read is silently clamped to the stored
data rather than rejected — a negative start index is raised to 0, the
end index is lowered to the last stored sample, and a clamped-empty range
(start at or beyond the signal's length) yields an empty sequence with no
error. -/
theorem read_clamped_range (MAX : Nat) (l : List ℚ) (rate : Option ℚ)
    (clock : ClockModel) (a b : Int) (mp : Option Int)
    (hMAX : 1 ≤ MAX) (hab : a ≤ b) :
    ∃ segs, runRead MAX ⟨⟨l, rate, clock⟩, ⟨none, some (a, b), none, mp⟩⟩ =
        Except.ok segs ∧
      segsData segs =
        (l.drop (max 0 a).toNat).take
          ((min (l.length : Int) (b + 1) - max 0 a).toNat) ∧
      ((l.length : Int) ≤ a → segs = []) := by
  obtain ⟨cap, hcap, hcap1⟩ := resolveCap_none_ok MAX rate mp hMAX
  have hrun := runRead_segment MAX l rate clock a b mp cap hcap hab
  by_cases hc0 : min (l.length : Int) (b + 1) - max 0 a ≤ 0
  · have h0 : (min (l.length : Int) (b + 1) - max 0 a).toNat = 0 := by omega
    rw [h0] at hrun
    rw [h0]
    exact ⟨_, hrun, rfl, fun _ => rfl⟩
  · refine ⟨_, hrun, ?_, ?_⟩
    · exact (readLoop_concat_sum l clock _ _ (max 0 a).toNat cap hcap1
        (by omega) le_rfl).1
    · intro hla
      exfalso
      omega

theorem read_clamped_range_witness :
    1 ≤ 10 ∧ (-2 : Int) ≤ 10 ∧
      (∃ segs, runRead 10 ⟨⟨[1, 2, 3], none, ClockModel.uniform 1⟩,
          ⟨none, some (-2, 10), none, none⟩⟩ = Except.ok segs ∧
        segsData segs =
          (([1, 2, 3] : List ℚ).drop (max 0 (-2 : Int)).toNat).take
            ((min (([1, 2, 3] : List ℚ).length : Int) (10 + 1) -
              max 0 (-2 : Int)).toNat) ∧
        ((([1, 2, 3] : List ℚ).length : Int) ≤ -2 → segs = [])) :=
  ⟨by decide, by decide,
   read_clamped_range 10 [1, 2, 3] none (ClockModel.uniform 1) (-2) 10 none
     (by decide) (by decide)⟩

/-- The chunk-cap formula as claim C3 words it, reading "given" as
supplied: `min(max_points, round(rate*max_duration))` when both are
given, else whichever is given; `MAX` when neither is given or the
result lies outside `(0, MAX]`. -/
def claimCap (MAX : Nat) (rate : ℚ) (maxduration : Option ℚ)
    (maxpoints : Option Int) : Nat :=
  let pfd : Option Int := maxduration.map (fun d => pyInt (rate * d + 1 / 2))
  let norm : Int → Nat := fun v =>
    if 0 < v ∧ v ≤ (MAX : Int) then v.toNat else MAX
  match maxpoints, pfd with
  | some m, some p => norm (min m p)
  | some m, none => norm m
  | none, some p => norm p
  | none, none => MAX

/-- The claim's cap formula corrected for Python truthiness: a
zero-valued cap argument counts as absent. -/
def claimCapTruthy (MAX : Nat) (rate : ℚ) (maxduration : Option ℚ)
    (maxpoints : Option Int) : Nat :=
  claimCap MAX rate
    (match maxduration with
     | some d => if d = 0 then none else some d
     | none => none)
    (match maxpoints with
     | some m => if m = 0 then none else some m
     | none => none)

theorem resolveCap_some_rate (MAX : Nat) (r : ℚ) (md : Option ℚ)
    (mp : Option Int) :
    resolveCap MAX (some r) md mp =
      Except.ok (claimCapTruthy MAX r md mp) := by
  cases md with
  | none =>
    cases mp with
    | none => simp [resolveCap, truthy, claimCapTruthy, claimCap]
    | some m =>
      by_cases hm : m = 0
      · subst hm
        simp [resolveCap, truthy, claimCapTruthy, claimCap]
      · simp [resolveCap, truthy, claimCapTruthy, claimCap, hm]
  | some d =>
    by_cases hd : d = 0
    · subst hd
      cases mp with
      | none => simp [resolveCap, truthy, claimCapTruthy, claimCap]
      | some m =>
        by_cases hm : m = 0
        · subst hm
          simp [resolveCap, truthy, claimCapTruthy, claimCap]
        · simp [resolveCap, truthy, claimCapTruthy, claimCap, hm]
    · cases mp with
      | none => simp [resolveCap, truthy, claimCapTruthy, claimCap, hd]
      | some m =>
        by_cases hm : m = 0
        · subst hm
          simp [resolveCap, truthy, claimCapTruthy, claimCap, hd]
        · simp [resolveCap, truthy, claimCapTruthy, claimCap, hd, hm]

/-- Claim C3 counterexample: with `maxpoints = 5` and `maxduration = 0`
both given (and rate 1, ceiling 10), the claim's formula gives
`min(5, round(1*0)) = 0`, outside `(0, 10]`, hence the fallback 10 — but
the code treats the zero duration as falsy, keeps `maxpoints = 5`, and
resolves the cap to 5. -/
theorem resolveCap_claim_counterexample :
    resolveCap 10 (some 1) (some 0) (some 5) = Except.ok 5 ∧
    claimCap 10 1 (some 0) (some 5) = 10 ∧ (5 : Nat) ≠ 10 := by
  refine ⟨by rfl, ?_, by decide⟩
  have harith : (1 * (0 : ℚ) + 1 / 2) = 1 / 2 := by norm_num
  have hnum : ((1 : ℚ) / 2).num = 1 := by norm_num
  have hden : ((1 : ℚ) / 2).den = 2 := by norm_num
  have hpy : pyInt (1 * (0 : ℚ) + 1 / 2) = 0 := by
    simp only [pyInt, harith, hnum, hden]
    decide
  simp only [claimCap, Option.map_some']
  rw [hpy]
  decide

/-- Claim C3 (amended): the effective chunk cap is resolved once before
iteration by the claim's formula with Python truthiness — a zero-valued
cap argument counts as absent: `min(maxpoints, int(rate*maxduration+0.5))`
over the caps that are given and non-zero, falling back to the fixed
ceiling `MAX` when none remains or the result lies outside `(0, MAX]`. -/
theorem resolveCap_truthy_formula (MAX : Nat) (r : ℚ) (md : Option ℚ)
    (mp : Option Int) :
    resolveCap MAX (some r) md mp =
      Except.ok (claimCapTruthy MAX r md mp) :=
  resolveCap_some_rate MAX r md mp

/-- Claim C4 counterexample: a concrete explicit-clocked signal — whose
`rate` attribute is unset, as holds for HDF5 signals carrying a clock —
read with `maxduration` given fails with TypeError at
`int(self.rate*maxduration + 0.5)`: no duration-to-points translation
via clock index arithmetic (per chunk or otherwise) ever happens. -/
theorem read_explicit_duration_counterexample :
    runRead 10 ⟨⟨[1, 2, 3, 4, 5, 6], none,
        ClockModel.explicit [0, 10, 20, 21, 22, 23]⟩,
      ⟨none, none, some 1, none⟩⟩ = Except.error PyErr.typeError := by
  rfl

/-- Claim C4 (amended): a duration cap is translated into a point count
once, before iteration, from the signal's fixed `rate` attribute
(`int(rate*maxduration + 0.5)`), never via clock index arithmetic at the
read position; for an explicit-clocked signal whose rate attribute is
unset, every read giving a truthy `maxduration` fails with TypeError. -/
theorem read_duration_fixed_rate (MAX : Nat) (l ts : List ℚ) (md : ℚ)
    (mp : Option Int) (sg : Option (Int × Int)) (hmd : md ≠ 0) :
    runRead MAX ⟨⟨l, none, ClockModel.explicit ts⟩,
        ⟨none, sg, some md, mp⟩⟩ = Except.error PyErr.typeError ∧
    (∀ r : ℚ, resolveCap MAX (some r) (some md) mp =
      Except.ok (claimCapTruthy MAX r (some md) mp)) := by
  constructor
  · have ht : truthy (some md) = true := by simp [truthy, hmd]
    simp [runRead, resolveCap, ht]
  · intro r
    exact resolveCap_some_rate MAX r (some md) mp

theorem read_duration_fixed_rate_witness :
    ((1 : ℚ) ≠ 0) ∧
    (runRead 10 ⟨⟨[1, 2], none, ClockModel.explicit [0, 5]⟩,
        ⟨none, none, some 1, none⟩⟩ = Except.error PyErr.typeError ∧
     (∀ r : ℚ, resolveCap 10 (some r) (some 1) none =
       Except.ok (claimCapTruthy 10 r (some 1) none))) :=
  ⟨by decide,
   read_duration_fixed_rate 10 [1, 2] [0, 5] 1 none none (by decide)⟩

/-- A store that has nothing further to return. -/
def emptyStore : Nat → Nat → List ℚ := fun _ _ => []

/-- Claim C5 counterexample: when the store returns 0 samples with
remaining > 0 the loop does not terminate early — the step yields an
(empty) segment and re-enters exactly the same state, so the unbounded
Python loop yields forever: 7 units of fuel produce 7 segments instead
of the at most one that the claimed `n == 0` early exit would allow. -/
theorem readStep_zero_samples_counterexample :
    readStep emptyStore (ClockModel.uniform 1) ⟨0, 5, 3⟩ =
      some (⟨uniformTime 1 0, PyTimeSeries.uniform [] 1⟩, ⟨0, 5, 3⟩) ∧
    (readLoop emptyStore (ClockModel.uniform 1) 7 ⟨0, 5, 3⟩).length = 7 :=
  ⟨rfl, rfl⟩

/-- Claim C5 (amended): over the honest store every read sequence is
finite — the loop completes within `remaining` iterations (fuel beyond
`remaining` changes nothing) and stops when the remaining count reaches
0; there is no early exit on an empty store answer, so only the honest
store's guaranteed progress bounds the loop. -/
theorem read_loop_terminates_honest (l : List ℚ) (clock : ClockModel)
    (fuel len sp mp : Nat) (h1 : 1 ≤ mp) (h2 : sp + len ≤ l.length)
    (h3 : len ≤ fuel) :
    readLoop (listStore l) clock fuel ⟨sp, len, mp⟩ =
      readLoop (listStore l) clock len ⟨sp, len, mp⟩ :=
  readLoop_fuel_eq l clock fuel len len sp mp h1 h2 h3 le_rfl

theorem read_loop_terminates_honest_witness :
    1 ≤ 1 ∧ 0 + 2 ≤ ([7, 8] : List ℚ).length ∧ 2 ≤ 9 ∧
      readLoop (listStore [7, 8]) (ClockModel.uniform 1) 9 ⟨0, 2, 1⟩ =
        readLoop (listStore [7, 8]) (ClockModel.uniform 1) 2 ⟨0, 2, 1⟩ :=
  ⟨by decide, by decide, by decide,
   read_loop_terminates_honest [7, 8] (ClockModel.uniform 1) 9 2 0 1
     (by decide) (by decide) (by decide)⟩

/-- Claim C6 counterexample: `read` contains `yield`, so it is a Python
generator function — calling it with both addressings supplied returns a
generator value and raises nothing; the ValueError surfaces only when
iteration starts, not at construction of the sequence. -/
theorem readCall_both_counterexample :
    readCall ⟨[1, 2], some 1, ClockModel.uniform 1⟩
        ⟨some (0, 1), some (0, 1), none, none⟩ =
      Except.ok ⟨⟨[1, 2], some 1, ClockModel.uniform 1⟩,
        ⟨some (0, 1), some (0, 1), none, none⟩⟩ ∧
    runRead 10 ⟨⟨[1, 2], some 1, ClockModel.uniform 1⟩,
        ⟨some (0, 1), some (0, 1), none, none⟩⟩ =
      Except.error PyErr.valueError :=
  ⟨rfl, rfl⟩

/-- Claim C6 (amended): supplying both `interval` and `segment` to read
always fails with ValueError regardless of their values, but the error
is raised when the returned generator is first iterated — constructing
the read sequence itself always succeeds. -/
theorem read_both_addressings_error (MAX : Nat) (sig : SignalModel)
    (iv : ℚ × ℚ) (sg : Int × Int) (md : Option ℚ) (mp : Option Int) :
    readCall sig ⟨some iv, some sg, md, mp⟩ =
      Except.ok ⟨sig, ⟨some iv, some sg, md, mp⟩⟩ ∧
    runRead MAX ⟨sig, ⟨some iv, some sg, md, mp⟩⟩ =
      Except.error PyErr.valueError :=
  ⟨rfl, rfl⟩

/-- Claim C7 counterexample: appending an explicit-clocked series to a
uniform-clocked signal is not rejected — `append` runs the
uniform-clock path, extends the stored values with the series data, and
silently drops the timestamps; no DimensionMismatch is raised. -/
theorem append_variant_mismatch_counterexample :
    appendData (ClockModel.uniform 1) ⟨[], []⟩
        (PyTimeSeries.explicit [0, 1] [5, 6]) = Except.ok ⟨[5, 6], []⟩ ∧
    appendData (ClockModel.uniform 1) ⟨[], []⟩
        (PyTimeSeries.explicit [0, 1] [5, 6]) ≠
      Except.error PyErr.dimensionMismatch := by
  constructor
  · rfl
  · intro h
    rw [show appendData (ClockModel.uniform 1) ⟨[], []⟩
        (PyTimeSeries.explicit [0, 1] [5, 6]) = Except.ok ⟨[5, 6], []⟩
      from rfl] at h
    exact Except.noConfusion h

/-- Claim C7 (amended): `append` performs no clock-variant check — an
explicit series appended to a uniform-clocked signal is accepted, its
values appended and its timestamps silently discarded; a uniform series
appended to an explicit-clocked signal fails only through the missing
`time.times` attribute access, not with DimensionMismatch. -/
theorem append_no_variant_check (r r2 : ℚ) (store : H5Store)
    (t d d2 ts : List ℚ) :
    appendData (ClockModel.uniform r) store (PyTimeSeries.explicit t d) =
      Except.ok ⟨store.values ++ d, store.clockTimes⟩ ∧
    appendData (ClockModel.explicit ts) store (PyTimeSeries.uniform d2 r2) =
      Except.error PyErr.attributeError :=
  ⟨rfl, rfl⟩

/-- Claim C8: `add_signal` fails with the duplicate-URI error when the
signal's URI is already present and leaves the recording's signal set
(and the signal) unchanged; otherwise — the URI absent and the signal's
recording reference unset or equal to this recording — it binds
`signal.recording` to the recording, appends the URI, inserts the signal
into the URI-keyed map, and returns the 0-origin insertion index. -/
theorem add_signal_contract (rec : RecordingModel) (sig : SignalEntry) :
    (sig.uri ∈ rec.signal_uris →
      add_signal rec sig = (Except.error PyErr.duplicateURI, rec, sig)) ∧
    (sig.uri ∉ rec.signal_uris →
      (sig.recording = none ∨ sig.recording = some rec.uri) →
      add_signal rec sig =
        (Except.ok rec.signal_uris.length,
         { rec with signal_uris := rec.signal_uris ++ [sig.uri],
                    sigmap := rec.sigmap ++
                      [(sig.uri, { sig with recording := some rec.uri })] },
         { sig with recording := some rec.uri })) := by
  constructor
  · intro h
    simp [add_signal, h]
  · intro h hrec
    have hb : (match sig.recording with
               | some r0 => r0 != rec.uri
               | none => false) = false := by
      rcases hrec with h1 | h1 <;> simp [h1]
    simp [add_signal, h, hb]

theorem add_signal_contract_witness :
    ((1 : Nat) ∈ [1]) ∧
    (add_signal ⟨0, [1], [(1, ⟨1, some 0⟩)]⟩ ⟨1, none⟩ =
      (Except.error PyErr.duplicateURI,
       ⟨0, [1], [(1, ⟨1, some 0⟩)]⟩, ⟨1, none⟩)) ∧
    ((2 : Nat) ∉ [1]) ∧
    (add_signal ⟨0, [1], [(1, ⟨1, some 0⟩)]⟩ ⟨2, none⟩ =
      (Except.ok 1, ⟨0, [1, 2], [(1, ⟨1, some 0⟩), (2, ⟨2, some 0⟩)]⟩,
       ⟨2, some 0⟩)) :=
  ⟨by decide,
   (add_signal_contract ⟨0, [1], [(1, ⟨1, some 0⟩)]⟩ ⟨1, none⟩).1 (by decide),
   by decide,
   (add_signal_contract ⟨0, [1], [(1, ⟨1, some 0⟩)]⟩ ⟨2, none⟩).2
     (by decide) (Or.inl rfl)⟩

/-- Claim C9 counterexample: in a recording whose signals were inserted
under URIs 2 then 1 (reachable by two `add_signal` calls from empty, as
the first two conjuncts show), `get_signal(index=0)` resolves against
the insertion-order URI list and returns the URI-2 signal, while
`signals()[0]` is the URI-1 signal — index resolution does not follow
the URI-sorted order. -/
theorem get_signal_index_counterexample :
    (add_signal ⟨0, [], []⟩ ⟨2, none⟩).2.1 =
      ⟨0, [2], [(2, ⟨2, some 0⟩)]⟩ ∧
    (add_signal ⟨0, [2], [(2, ⟨2, some 0⟩)]⟩ ⟨1, none⟩).2.1 =
      ⟨0, [2, 1], [(2, ⟨2, some 0⟩), (1, ⟨1, some 0⟩)]⟩ ∧
    get_signal ⟨0, [2, 1], [(2, ⟨2, some 0⟩), (1, ⟨1, some 0⟩)]⟩ none 0 =
      some ⟨2, some 0⟩ ∧
    (signals ⟨0, [2, 1], [(2, ⟨2, some 0⟩), (1, ⟨1, some 0⟩)]⟩).getD 0 none =
      some ⟨1, some 0⟩ ∧
    (some (⟨2, some 0⟩ : SignalEntry) ≠ some (⟨1, some 0⟩ : SignalEntry)) :=
  ⟨by decide, by decide, by decide, by decide, by decide⟩

/-- Claim C9 (amended): `signals()` lists the recording's signals in
ascending URI order — the traversal order is a sorted permutation of the
stored URIs — while `get_signal` with no URI resolves the index against
the insertion-order URI list `_signal_uris`, which need not agree with
`signals()[i]`. -/
theorem signals_sorted_index_insertion (rec : RecordingModel) :
    List.Sorted (· ≤ ·) (rec.signal_uris.insertionSort (· ≤ ·)) ∧
    (rec.signal_uris.insertionSort (· ≤ ·)).Perm rec.signal_uris ∧
    signals rec =
      (rec.signal_uris.insertionSort (· ≤ ·)).map
        (fun u => rec.sigmap.lookup u) ∧
    (∀ i u, rec.signal_uris[i]? = some u →
      get_signal rec none i = rec.sigmap.lookup u) := by
  refine ⟨List.sorted_insertionSort _ _, List.perm_insertionSort _ _,
    rfl, ?_⟩
  intro i u hu
  simp [get_signal, hu]

theorem signals_sorted_index_insertion_witness :
    (([3, 1] : List Nat).insertionSort (· ≤ ·)).Perm [3, 1] ∧
    ([3, 1][0]? = some 3) ∧
    get_signal ⟨5, [3, 1], [(3, ⟨3, some 5⟩), (1, ⟨1, some 5⟩)]⟩ none 0 =
      List.lookup 3 [(3, ⟨3, some 5⟩), (1, ⟨1, some 5⟩)] :=
  ⟨(signals_sorted_index_insertion
      ⟨5, [3, 1], [(3, ⟨3, some 5⟩), (1, ⟨1, some 5⟩)]⟩).2.1,
   by decide,
   (signals_sorted_index_insertion
      ⟨5, [3, 1], [(3, ⟨3, some 5⟩), (1, ⟨1, some 5⟩)]⟩).2.2.2 0 3
     (by decide)⟩

end BSML
